import Mathlib

/-!
Verification of the `gotail` repository: a polling file tailer consisting of
`FileState` (file_state.go), the polling rotation watcher `pollWatcher`
(poll_rotater.go) and the `LineReader` (tail.go).

The Go code is shallowly embedded as pure Lean functions.  Syscalls are made
explicit:

* `OSHandle` models an `*os.File` together with per-syscall failure-injection
  flags, used for the `FileState.SeekIfMatches` contract where the claim
  speaks about propagating seek errors.
* `Sys` is a filesystem snapshot (inode-indexed contents plus the file, if
  any, currently at the configured path).  Stateful code that races with the
  filesystem is embedded against a trace `env : Nat -> Sys`: each syscall
  observes the snapshot at the current clock value and advances the clock,
  so that the filesystem may change between any two syscalls, exactly as in
  the real program.
* File sizes and offsets are `Int` (Go `int64`); inodes are `Nat`
  (Go `uint64`, only ever compared for equality).  No arithmetic in any of
  the modelled scenarios approaches the 64-bit range, so wrap-around is not
  modelled.
-/

/-- Errors distinguished by the Go code: `os.IsNotExist`, the
`os.ErrClosed` returned by double-closing an `*os.File`, and any other
I/O error (stat/seek/open failures the code only passes through). -/
inductive Err where
  | notExist
  | errClosed
  | ioError
  | invalidWhence
  | negativeInterval
  | emptyPath
deriving DecidableEq

/-- FileState from file_state.go: inode, size, and descriptor position of a
regular file at the moment of observation. -/
structure FileState where
  Size : Int
  Position : Int
  Inode : Nat
deriving DecidableEq

/-- Model of an open `*os.File` with failure injection for each kind of
syscall the `FileState` code performs on it: `statFails` for `f.Stat()`,
`tellFails` for the offset query `f.Seek(0, io.SeekCurrent)`, and
`seekFails` for the absolute `f.Seek(pos, io.SeekStart)`.  `size` is the
size of the file the handle refers to, `offset` its current descriptor
offset, `isClosed` whether `Close` was already called on it. -/
structure OSHandle where
  ino : Nat
  size : Int
  offset : Int
  isClosed : Bool
  statFails : Bool
  tellFails : Bool
  seekFails : Bool
deriving DecidableEq

/-- Model of `f.Stat()` returning size and inode. -/
def fstatH (h : OSHandle) : Except Err (Int × Nat) :=
  if h.statFails then .error .ioError else .ok (h.size, h.ino)

/-- Model of `f.Seek(0, io.SeekCurrent)`: query the current offset. -/
def tellH (h : OSHandle) : Except Err Int :=
  if h.tellFails then .error .ioError else .ok h.offset

/-- Model of `f.Seek(pos, io.SeekStart)`: absolute seek, returning the
updated handle together with the offset it reports. -/
def seekAbsH (h : OSHandle) (pos : Int) : Except Err (OSHandle × Int) :=
  if h.seekFails then .error .ioError else .ok ({ h with offset := pos }, pos)

/-- NewFileState from file_state.go lines 74-101: stat the handle for size
and inode, then read the current offset without modifying it. -/
def NewFileState (h : OSHandle) : Except Err FileState :=
  match fstatH h with
  | .error e => .error e
  | .ok (sz, ino) =>
    match tellH h with
    | .error e => .error e
    | .ok pos => .ok { Size := sz, Position := pos, Inode := ino }

/-- FileState.SeekIfMatches from file_state.go lines 32-55: capture a fresh
identity of the handle; decline when the inode differs or the stored
position exceeds the fresh size (handle untouched in both cases);
otherwise seek the handle absolutely to the stored position and return the
fresh identity with its position set to the post-seek offset.  Stat/seek
errors are propagated. -/
def SeekIfMatches (s : FileState) (f : OSHandle) :
    Except Err (FileState × Bool × OSHandle) :=
  match NewFileState f with
  | .error e => .error e
  | .ok newState =>
    if s.Inode ≠ newState.Inode then .ok (newState, false, f)
    else if s.Position > newState.Size then .ok (newState, false, f)
    else
      match seekAbsH f s.Position with
      | .error e => .error e
      | .ok (f2, pos) => .ok ({ newState with Position := pos }, true, f2)

/-- A filesystem snapshot: the contents of every file in existence, indexed
by inode (an open handle keeps a file alive even after it is renamed away
or unlinked), and the inode of the file, if any, currently at the
configured path. -/
structure Sys where
  files : List (Nat × List Nat)
  named : Option Nat

/-- The open handle owned by the watcher: inode, descriptor offset, and
whether `Close` has already been called on it (a second `Close` of an
`*os.File` returns `os.ErrClosed`). -/
structure Handle where
  ino : Nat
  offset : Int
  isClosed : Bool
deriving DecidableEq

/-- Config from tail.go lines 235-258.  `Interval` is a Go
`time.Duration` in nanoseconds.  `Whence` is one of the `io.Seek`
constants: 0 = `io.SeekStart`, 1 = `io.SeekCurrent`, 2 = `io.SeekEnd`. -/
structure Config where
  Path : String
  Interval : Int
  Whence : Int
  StartState : Option FileState
  StopAtEOF : Bool
deriving DecidableEq

/-- One second as a Go `time.Duration` (nanoseconds). -/
def timeSecond : Int := 1000000000

/-- pollWatcher from poll_rotater.go lines 14-24: the config (mutated in
place by `openAndSeek` and `Wait`), the currently open handle if any, and
the closed flag.  The timer, mutex and cancellation channel carry no data
relevant to the embedded control flow. -/
structure pollWatcher where
  c : Config
  f : Option Handle
  closed : Bool
deriving DecidableEq

/-- NewPollingWatcher from poll_rotater.go lines 29-54: validate whence,
reject a negative interval and coerce a zero one to a second, reject an
empty path.  The constructor is a pure function of the config: it performs
no filesystem access (it takes no `Sys` argument). -/
def NewPollingWatcher (c : Config) : Except Err pollWatcher :=
  if ¬(c.Whence = 0 ∨ c.Whence = 1 ∨ c.Whence = 2) then .error .invalidWhence
  else if c.Interval < 0 then .error .negativeInterval
  else
    let c := if c.Interval = 0 then { c with Interval := timeSecond } else c
    if c.Path = "" then .error .emptyPath
    else .ok { c := c, f := none, closed := false }

/-- Model of `os.Open(path)` against a snapshot: fails with not-exist when
no file is at the path, otherwise yields a handle at offset 0. -/
def osOpen (sys : Sys) : Except Err Handle :=
  match sys.named with
  | none => .error .notExist
  | some ino => .ok { ino := ino, offset := 0, isClosed := false }

/-- Trace-model counterpart of NewFileState (file_state.go lines 74-101)
for a watcher handle: size from the snapshot, position from the
descriptor offset.  Fails if the handle's file is gone from the snapshot
(stat failure). -/
def newFileStateSys (sys : Sys) (h : Handle) : Except Err FileState :=
  match sys.files.lookup h.ino with
  | none => .error .ioError
  | some content => .ok { Size := content.length, Position := h.offset, Inode := h.ino }

/-- NewFileStateFromPath from file_state.go lines 103-111: stat the path;
position is 0. -/
def NewFileStateFromPath (sys : Sys) : Except Err FileState :=
  match sys.named with
  | none => .error .notExist
  | some ino =>
    match sys.files.lookup ino with
    | none => .error .ioError
    | some content => .ok { Size := content.length, Position := 0, Inode := ino }

/-- Trace-model counterpart of FileState.SeekIfMatches (file_state.go
lines 32-55) acting on a watcher handle over a snapshot; the same
decision logic as `SeekIfMatches`, with the fresh capture taken from the
snapshot. -/
def seekIfMatchesSys (sys : Sys) (s : FileState) (f : Handle) :
    Except Err (FileState × Bool × Handle) :=
  match newFileStateSys sys f with
  | .error e => .error e
  | .ok newState =>
    if s.Inode ≠ newState.Inode then .ok (newState, false, f)
    else if s.Position > newState.Size then .ok (newState, false, f)
    else .ok ({ newState with Position := s.Position }, true,
              { f with offset := s.Position })

/-- pollWatcher.openAndSeek from poll_rotater.go lines 151-176: open the
path; if a start state is present run `SeekIfMatches` on the fresh handle
(the match outcome is discarded) and one-shot clear the start state and
coerce whence to start; otherwise honor a non-start whence once.
`f.Seek(0, io.SeekEnd)` places the offset at the snapshot size;
`f.Seek(0, io.SeekCurrent)` leaves the fresh handle at offset 0.  All
syscalls of one `openAndSeek` observe the same snapshot. -/
def openAndSeek (sys : Sys) (p : pollWatcher) :
    Except Err (pollWatcher × Handle) :=
  match osOpen sys with
  | .error e => .error e
  | .ok f =>
    match p.c.StartState with
    | some st =>
      match seekIfMatchesSys sys st f with
      | .error e => .error e
      | .ok (_, _, f2) =>
        .ok ({ p with c := { p.c with StartState := none, Whence := 0 } }, f2)
    | none =>
      if p.c.Whence ≠ 0 then
        match sys.files.lookup f.ino with
        | none => .error .ioError
        | some content =>
          let off : Int := if p.c.Whence = 2 then content.length else f.offset
          .ok ({ p with c := { p.c with Whence := 0 } }, { f with offset := off })
      else .ok (p, f)

/-- WaitStatus from tail.go lines 262-279.  The `File` field (a borrowed
handle) is modelled by the inode it refers to. -/
structure WaitStatusM where
  State : FileState
  FileIno : Option Nat
  ReOpened : Bool
deriving DecidableEq

/-- The zero value of `WaitStatus` (returned on early exits in Go). -/
def emptyStatus : WaitStatusM :=
  { State := { Size := 0, Position := 0, Inode := 0 }, FileIno := none, ReOpened := false }

/-- One iteration of the `for` loop of pollWatcher.Wait (poll_rotater.go
lines 56-149), returning the updated watcher, the advanced syscall clock,
and `some (status, closed, err)` when the iteration returns from `Wait`,
`none` when it executes `continue`.

Control flow is embedded exactly as written.  In particular, in the
Tracking branch the chain at lines 119-125

  if err == nil and inodes equal  => continue
  else if os.IsNotExist(err)      => continue
  else                            => return s, false, err

returns `(s, false, nil)` when the path stat succeeds with a different
inode, because every branch of the chain ends in `continue` or `return`;
the rotation double-check and handle replacement at lines 127-147 are
therefore unreachable and have no image in this embedding. -/
def waitIter (env : Nat → Sys) (t : Nat) (p : pollWatcher) :
    pollWatcher × Nat × Option (WaitStatusM × Bool × Option Err) :=
  if p.closed then (p, t, some (emptyStatus, true, none))
  else
    match p.f with
    | none =>
      match openAndSeek (env t) p with
      | .error e =>
        if e = .notExist then
          ({ p with c := { p.c with Whence := 0 } }, t + 1, none)
        else (p, t + 1, some (emptyStatus, p.closed, some e))
      | .ok (p2, f) =>
        match newFileStateSys (env (t + 1)) f with
        | .error e => (p2, t + 2, some (emptyStatus, p2.closed, some e))
        | .ok st =>
          ({ p2 with f := some f }, t + 2,
           some ({ State := st, FileIno := some f.ino, ReOpened := true }, false, none))
    | some f =>
      match newFileStateSys (env t) f with
      | .error e =>
        (p, t + 1,
         some ({ emptyStatus with FileIno := some f.ino }, false, some e))
      | .ok st =>
        if st.Size > st.Position then
          (p, t + 1,
           some ({ State := st, FileIno := some f.ino, ReOpened := false }, false, none))
        else
          match NewFileStateFromPath (env (t + 1)) with
          | .ok named =>
            if st.Inode = named.Inode then (p, t + 2, none)
            else
              (p, t + 2,
               some ({ State := st, FileIno := some f.ino, ReOpened := false }, false, none))
          | .error e =>
            if e = .notExist then (p, t + 2, none)
            else
              (p, t + 2,
               some ({ State := st, FileIno := some f.ino, ReOpened := false }, false, some e))

/-- Run the `Wait` loop for up to `fuel` iterations; `none` as result
means every iteration continued (the call is still blocked). -/
def waitRun (env : Nat → Sys) (fuel : Nat) (t : Nat) (p : pollWatcher) :
    pollWatcher × Nat × Option (WaitStatusM × Bool × Option Err) :=
  match fuel with
  | 0 => (p, t, none)
  | fuel + 1 =>
    match waitIter env t p with
    | (p2, t2, some r) => (p2, t2, some r)
    | (p2, t2, none) => waitRun env fuel t2 p2

/-- Model of `(*os.File).Close`: the first close succeeds and marks the
handle closed; closing again returns `os.ErrClosed` and changes
nothing. -/
def fileClose (h : Handle) : Handle × Option Err :=
  if h.isClosed then (h, some .errClosed)
  else ({ h with isClosed := true }, none)

/-- pollWatcher.Close from poll_rotater.go lines 178-189: set the closed
flag and fire the (one-shot) cancellation only if not already closed;
then, if a handle reference is held, return the result of closing it.
The handle reference is never cleared, so a later call re-closes the
already-closed handle. -/
def pollWatcher.Close (p : pollWatcher) : pollWatcher × Option Err :=
  let p2 := if ¬p.closed then { p with closed := true } else p
  match p2.f with
  | some h =>
    let (h2, e) := fileClose h
    ({ p2 with f := some h2 }, e)
  | none => (p2, none)

/-- Bytes delivered by one `bufio.Reader.ReadBytes` call with delimiter
`\n` (byte 10): everything up to and including the first 10, or the whole
input (followed by EOF) when no 10 is present. -/
def takeUpToNewline : List Nat → List Nat
  | [] => []
  | b :: bs => if b = 10 then [10] else b :: takeUpToNewline bs

/-- The delimiter trim at the end of LineReader.Next (tail.go lines
675-680): drop the final byte, and one more when the bytes end in
`\r\n` (13, 10).  Only reached on bytes ending in 10, where the Go slice
bound is in range. -/
def stripDelim (b : List Nat) : List Nat :=
  if List.isSuffixOf [13, 10] b then b.take (b.length - 2)
  else b.take (b.length - 1)

/-- LineReader state from tail.go lines 550-564.  The buffered reader
`br` is modelled by the inode of the file it wraps together with its read
position into that file's contents; `none` is the nil reader before the
first Wait.  This read-position model agrees with `bufio.Reader` over the
watcher handle at every observation point, because `Next` only calls
`Wait` after `ReadBytes` returned EOF, at which point the buffer is
drained and the handle offset equals the bytes delivered; in between, an
append-only file makes buffered read-ahead indistinguishable from direct
reads. -/
structure LineReaderState where
  sState : FileState
  sFileIno : Option Nat
  brFile : Option Nat
  brPos : Nat
  lastBytes : List Nat
  err : Bool
  stopAtEOF : Bool
  handlerFatal : Bool
deriving DecidableEq

/-- Contents of the file with inode `ino` in snapshot `sys` (a handle
whose file vanished reads as empty, which surfaces as EOF exactly as a
read at the end of a drained file would). -/
def contentAt (sys : Sys) (ino : Nat) : List Nat :=
  match sys.files.lookup ino with
  | none => []
  | some content => content

/-- The `for` loop of LineReader.Next (tail.go lines 607-685), generic
over the watcher: `W` is the watcher state and `waitFn` its `Wait`
method, clock-aware so the real `pollWatcher` (via `waitRun`) and a
scripted `Watcher`-interface oracle both instantiate it.  Each
`ReadBytes` observes `env` at the current clock and advances it.  Result
`some b` is the boolean returned by `Next`; `none` means the loop was
still blocked (fuel, or `waitFn`, exhausted).  The error handler is
modelled by `handlerFatal`: the handler's returned error is recorded in
`l.err` as in tail.go lines 644 and 664. -/
def nextLoop {W : Type} (env : Nat → Sys)
    (waitFn : Nat → W → W × Nat × Option (WaitStatusM × Bool × Option Err)) :
    Nat → Nat → W → LineReaderState →
    W × Nat × LineReaderState × Option Bool
  | 0, t, w, l => (w, t, l, none)
  | fuel + 1, t, w, l =>
    if l.err then (w, t, l, some false)
    else
      match l.brFile with
      | some ino =>
        let b := takeUpToNewline ((contentAt (env t) ino).drop l.brPos)
        let l2 := { l with
          brPos := l.brPos + b.length,
          sState := { l.sState with Position := l.sState.Position + b.length },
          lastBytes := l.lastBytes ++ b }
        if b.getLast? = some 10 then
          (w, t + 1, { l2 with lastBytes := stripDelim l2.lastBytes }, some true)
        else if l2.stopAtEOF then
          nextLoop env waitFn fuel (t + 1) w { l2 with err := true }
        else
          match waitFn (t + 1) w with
          | (w2, t2, none) => (w2, t2, l2, none)
          | (w2, t2, some (_, true, _)) => (w2, t2, l2, some false)
          | (w2, t2, some (s, false, e)) =>
            let l3 := { l2 with sState := s.State, sFileIno := s.FileIno }
            match e with
            | some _ => nextLoop env waitFn fuel t2 w2 { l3 with err := l3.handlerFatal }
            | none =>
              if s.ReOpened then
                nextLoop env waitFn fuel t2 w2
                  { l3 with brFile := s.FileIno, brPos := s.State.Position.toNat }
              else nextLoop env waitFn fuel t2 w2 l3
      | none =>
        match waitFn t w with
        | (w2, t2, none) => (w2, t2, l, none)
        | (w2, t2, some (_, true, _)) => (w2, t2, l, some false)
        | (w2, t2, some (s, false, e)) =>
          let l3 := { l with sState := s.State, sFileIno := s.FileIno }
          match e with
          | some _ => nextLoop env waitFn fuel t2 w2 { l3 with err := l3.handlerFatal }
          | none =>
            if s.ReOpened then
              nextLoop env waitFn fuel t2 w2
                { l3 with brFile := s.FileIno, brPos := s.State.Position.toNat }
            else nextLoop env waitFn fuel t2 w2 l3

/-- One call of LineReader.Next: clear `lastBytes` (tail.go line 611) and
run the loop. -/
def NextCall {W : Type} (env : Nat → Sys)
    (waitFn : Nat → W → W × Nat × Option (WaitStatusM × Bool × Option Err))
    (fuel t : Nat) (w : W) (l : LineReaderState) :
    W × Nat × LineReaderState × Option Bool :=
  nextLoop env waitFn fuel t w { l with lastBytes := [] }

/-- The `Wait` method of the real polling watcher as a `nextLoop`
argument, with `fuel` iterations of its internal loop per call. -/
def pollWaitFn (env : Nat → Sys) (fuel : Nat) :
    Nat → pollWatcher → pollWatcher × Nat × Option (WaitStatusM × Bool × Option Err) :=
  fun t p => waitRun env fuel t p

/-- A scripted watcher implementing the `Watcher` interface contract of
tail.go lines 282-294: each `Wait` call pops the next response.  Used to
state properties of `LineReader.Next` itself, independent of the watcher
implementation behind the interface. -/
def scriptWaitFn :
    Nat → List (WaitStatusM × Bool × Option Err) →
    List (WaitStatusM × Bool × Option Err) × Nat × Option (WaitStatusM × Bool × Option Err) :=
  fun t w =>
    match w with
    | [] => ([], t, none)
    | r :: rest => (rest, t + 1, some r)

/-- Run `count` calls of `Next` on the real watcher, collecting for each
call that returned true the pair `(Bytes(), FileState())` exposed after
it (tail.go lines 691-693 and 714-716). -/
def runNexts (env : Nat → Sys) (waitFuel fuel : Nat) :
    Nat → Nat → pollWatcher → LineReaderState → List (List Nat × FileState)
  | 0, _, _, _ => []
  | count + 1, t, w, l =>
    match NextCall env (pollWaitFn env waitFuel) fuel t w l with
    | (w2, t2, l2, some true) =>
      (l2.lastBytes, l2.sState) :: runNexts env waitFuel fuel count t2 w2 l2
    | _ => []

/-- The LineReader as built by NewLineReader (tail.go lines 571-587): no
buffered reader yet, no error; `stopAtEOF` from the config and the
zero-value retained status. -/
def initLineReader (stopAtEOF handlerFatal : Bool) : LineReaderState :=
  { sState := { Size := 0, Position := 0, Inode := 0 }
    sFileIno := none
    brFile := none
    brPos := 0
    lastBytes := []
    err := false
    stopAtEOF := stopAtEOF
    handlerFatal := handlerFatal }

/-- One successful record production of `Next` over a quiescent file:
from read position `pos` in `content`, `ReadBytes` yields
`takeUpToNewline (content.drop pos)`; when it found a delimiter the
record is the trimmed bytes and the position advances by the raw length
(the read-loop success path of tail.go lines 627-641 and 675-684);
otherwise (EOF with no delimiter before end of file) no record is
produced. -/
def nextStatic (content : List Nat) (pos : Nat) : Option (List Nat × Nat) :=
  let b := takeUpToNewline (content.drop pos)
  if b.getLast? = some 10 then some (stripDelim b, pos + b.length) else none

/-- The sequence of records `Next` produces from read position `pos` of a
quiescent file, following `nextStatic` until it stops. -/
def recordsFrom (content : List Nat) (pos : Nat) : List (List Nat) :=
  match h : nextStatic content pos with
  | none => []
  | some (r, pos2) =>
    have hdec : content.length - pos2 < content.length - pos := by
      have hle : ∀ l : List Nat, (takeUpToNewline l).length ≤ l.length := by
        intro l
        induction l with
        | nil => simp [takeUpToNewline]
        | cons b bs ih =>
          simp only [takeUpToNewline]
          split
          · simp
          · simpa using Nat.succ_le_succ ih
      simp only [nextStatic] at h
      split at h
      case isTrue hend =>
        obtain ⟨-, hp⟩ := Prod.mk.injEq .. ▸ Option.some.injEq .. ▸ h
        have hb : takeUpToNewline (content.drop pos) ≠ [] := by
          intro hnil
          rw [hnil] at hend
          simp at hend
        have hlen : 0 < (takeUpToNewline (content.drop pos)).length :=
          List.length_pos.mpr hb
        have hble : (takeUpToNewline (content.drop pos)).length ≤ content.length - pos := by
          simpa using hle (content.drop pos)
        have hdrop : content.drop pos ≠ [] := by
          intro hnil
          rw [hnil] at hb
          exact hb rfl
        have hposlt : pos < content.length := by
          by_contra hge
          exact hdrop (List.drop_eq_nil_of_le (by omega))
        omega
      case isFalse => exact absurd h (by simp)
    r :: recordsFrom content pos2
termination_by content.length - pos

/-- The read position after `k` further records from position `pos`: the
value `LineReader.FileState().Position` exposes, since each record adds
its raw (delimiter-inclusive) byte count. -/
def posAfter (content : List Nat) (pos : Nat) : Nat → Nat
  | 0 => pos
  | k + 1 =>
    match nextStatic content pos with
    | none => pos
    | some (_, pos2) => posAfter content pos2 k

/-- The line-boundaries vector: a single file, inode 1, holding the ten
bytes 97 10 98 13 10 99 10 10 100 10 (the text a, LF, b, CR, LF, c, LF,
LF, d, LF), never changing. -/
def lineVectorEnv : Nat → Sys :=
  fun _ => { files := [(1, [97, 10, 98, 13, 10, 99, 10, 10, 100, 10])], named := some 1 }

/-- Watcher for the line-boundaries vector: whence = start, no start
state; the reader is configured to stop at EOF as the repository's own
line reader test does. -/
def lineVectorWatcher : pollWatcher :=
  { c := { Path := "log", Interval := timeSecond, Whence := 0,
           StartState := none, StopAtEOF := true },
    f := none, closed := false }

/-- Growth race scenario: while the watcher opens and stats the tracked
file (clock values 0 and 1) it holds the three bytes 97 10 98 (a
terminated first line and a partial second one); from clock 2 on — after
the watcher returned its status and before the buffered reads — the
final newline byte 10 has been appended.  The file only ever grows; it
is never truncated. -/
def growthEnv : Nat → Sys :=
  fun t =>
    if t < 2 then { files := [(1, [97, 10, 98])], named := some 1 }
    else { files := [(1, [97, 10, 98, 10])], named := some 1 }

/-- Watcher for the growth race scenario. -/
def growthWatcher : pollWatcher :=
  { c := { Path := "log", Interval := timeSecond, Whence := 0,
           StartState := none, StopAtEOF := true },
    f := none, closed := false }

/-- Rotation handover scenario: the renamed-away old file (first inode)
and its replacement (second inode), which the path now names.  Static:
both files exist throughout. -/
def rotEnv (ino1 ino2 : Nat) (oldContent newContent : List Nat) : Nat → Sys :=
  fun _ => { files := [(ino1, oldContent), (ino2, newContent)], named := some ino2 }

/-- Length bound for one `ReadBytes` result. -/
theorem takeUpToNewline_length_le (l : List Nat) :
    (takeUpToNewline l).length ≤ l.length := by
  induction l with
  | nil => simp [takeUpToNewline]
  | cons b bs ih =>
    simp only [takeUpToNewline]
    split
    · simp
    · simpa using Nat.succ_le_succ ih

/-- A successful `nextStatic` strictly advances the position and stays
within the file. -/
theorem nextStatic_pos_lt {content : List Nat} {pos pos2 : Nat} {r : List Nat}
    (h : nextStatic content pos = some (r, pos2)) :
    pos < pos2 ∧ pos2 ≤ content.length := by
  simp only [nextStatic] at h
  split at h
  case isTrue hend =>
    obtain ⟨-, hp⟩ := Prod.mk.injEq .. ▸ Option.some.injEq .. ▸ h
    have hb : takeUpToNewline (content.drop pos) ≠ [] := by
      intro hnil
      rw [hnil] at hend
      simp at hend
    have hlen : 0 < (takeUpToNewline (content.drop pos)).length :=
      List.length_pos.mpr hb
    have hle : (takeUpToNewline (content.drop pos)).length ≤ content.length - pos := by
      simpa using takeUpToNewline_length_le (content.drop pos)
    constructor
    · omega
    · have hdrop : content.drop pos ≠ [] := by
        intro hnil
        rw [hnil] at hb
        exact hb rfl
      have hposlt : pos < content.length := by
        by_contra hge
        exact hdrop (List.drop_eq_nil_of_le (by omega))
      omega
  case isFalse => exact absurd h (by simp)

/-- Unfolding of `recordsFrom` when `nextStatic` stops. -/
theorem recordsFrom_eq_nil {content : List Nat} {pos : Nat}
    (h : nextStatic content pos = none) : recordsFrom content pos = [] := by
  rw [recordsFrom]
  split
  · rfl
  · rename_i r pos2 heq
    rw [h] at heq
    cases heq

/-- Unfolding of `recordsFrom` when `nextStatic` produces a record. -/
theorem recordsFrom_eq_cons {content : List Nat} {pos pos2 : Nat} {r : List Nat}
    (h : nextStatic content pos = some (r, pos2)) :
    recordsFrom content pos = r :: recordsFrom content pos2 := by
  rw [recordsFrom]
  split
  · rename_i heq
    rw [h] at heq
    cases heq
  · rename_i r2 p2 heq
    rw [h] at heq
    cases heq
    rfl

/-- The position after `k` records stays within the file. -/
theorem posAfter_le {content : List Nat} {pos : Nat} (k : Nat)
    (hpos : pos ≤ content.length) : posAfter content pos k ≤ content.length := by
  induction k generalizing pos with
  | zero => simpa [posAfter] using hpos
  | succ k ih =>
    simp only [posAfter]
    cases h : nextStatic content pos with
    | none => simp [hpos]
    | some rp =>
      obtain ⟨r, pos2⟩ := rp
      exact ih (nextStatic_pos_lt h).2

/-- Resuming the static record stream at the position reached after `k`
records yields exactly the records from index `k` on. -/
theorem recordsFrom_posAfter (content : List Nat) (pos : Nat) (k : Nat) :
    recordsFrom content (posAfter content pos k) = (recordsFrom content pos).drop k := by
  induction k generalizing pos with
  | zero => simp [posAfter]
  | succ k ih =>
    simp only [posAfter]
    cases h : nextStatic content pos with
    | none => simp [recordsFrom_eq_nil h]
    | some rp =>
      obtain ⟨r, pos2⟩ := rp
      rw [recordsFrom_eq_cons h, ih pos2]
      rfl

/-- The head of a dropped list is the element at the drop index. -/
theorem head?_drop_eq {α : Type} (l : List α) (k : Nat) :
    (l.drop k).head? = l.get? k := by
  induction l generalizing k with
  | nil => simp
  | cons a l ih =>
    cases k with
    | zero => simp
    | succ k => simp [ih k]

/-- Claim C3: SeekIfMatches first captures a fresh identity of the handle;
on an inode mismatch, or when the stored position exceeds the fresh size,
it returns the fresh identity with `matches = false` and the handle's
offset unchanged; otherwise it seeks the handle absolutely to the stored
position and returns the fresh identity, whose position is the post-seek
offset, with `matches = true`; a failing seek propagates the error. -/
theorem SeekIfMatches_contract (s : FileState) (f : OSHandle)
    (hstat : f.statFails = false) (htell : f.tellFails = false) :
    (f.ino ≠ s.Inode →
      SeekIfMatches s f =
        .ok ({ Size := f.size, Position := f.offset, Inode := f.ino }, false, f)) ∧
    (f.ino = s.Inode → s.Position > f.size →
      SeekIfMatches s f =
        .ok ({ Size := f.size, Position := f.offset, Inode := f.ino }, false, f)) ∧
    (f.ino = s.Inode → s.Position ≤ f.size → f.seekFails = false →
      SeekIfMatches s f =
        .ok ({ Size := f.size, Position := s.Position, Inode := f.ino }, true,
             { f with offset := s.Position })) ∧
    (f.ino = s.Inode → s.Position ≤ f.size → f.seekFails = true →
      SeekIfMatches s f = .error .ioError) := by
  refine ⟨fun hne => ?_, fun heq hgt => ?_, fun heq hle hsk => ?_, fun heq hle hsk => ?_⟩
  · simp [SeekIfMatches, NewFileState, fstatH, tellH, hstat, htell, Ne.symm hne]
  · simp [SeekIfMatches, NewFileState, fstatH, tellH, hstat, htell, hgt, ← heq]
  · simp [SeekIfMatches, NewFileState, fstatH, tellH, seekAbsH, hstat, htell, hsk,
      ← heq, not_lt_of_ge hle]
  · simp [SeekIfMatches, NewFileState, fstatH, tellH, seekAbsH, hstat, htell, hsk,
      ← heq, not_lt_of_ge hle]

/-- Witness for C3: a matching identity (inode 7, stored position 4 within
the fresh size 9) seeks the handle from offset 2 to offset 4. -/
theorem SeekIfMatches_contract_witness :
    SeekIfMatches { Size := 10, Position := 4, Inode := 7 }
        { ino := 7, size := 9, offset := 2, isClosed := false,
          statFails := false, tellFails := false, seekFails := false } =
      .ok ({ Size := 9, Position := 4, Inode := 7 }, true,
           { ino := 7, size := 9, offset := 4, isClosed := false,
             statFails := false, tellFails := false, seekFails := false }) :=
  (SeekIfMatches_contract
      { Size := 10, Position := 4, Inode := 7 }
      { ino := 7, size := 9, offset := 2, isClosed := false,
        statFails := false, tellFails := false, seekFails := false }
      rfl rfl).2.2.1 rfl (by norm_num) rfl

/-- Claim C8: NewPollingWatcher fails exactly when whence is not one of
start/current/end (0, 1, 2), the interval is negative, or the path is
empty; a zero interval is coerced to one second; construction is a pure
function of the config (no filesystem access: it takes no snapshot). -/
theorem NewPollingWatcher_validation (c : Config) :
    ((NewPollingWatcher c).isOk ↔
      (c.Whence = 0 ∨ c.Whence = 1 ∨ c.Whence = 2) ∧ 0 ≤ c.Interval ∧ c.Path ≠ "") ∧
    (∀ p, NewPollingWatcher c = .ok p →
      p.f = none ∧ p.closed = false ∧
      p.c.Interval = (if c.Interval = 0 then timeSecond else c.Interval)) := by
  have hres : NewPollingWatcher c =
      if ¬(c.Whence = 0 ∨ c.Whence = 1 ∨ c.Whence = 2) then .error .invalidWhence
      else if c.Interval < 0 then .error .negativeInterval
      else if c.Path = "" then .error .emptyPath
      else .ok { c := { c with Interval := if c.Interval = 0 then timeSecond else c.Interval },
                 f := none, closed := false } := by
    unfold NewPollingWatcher
    by_cases hz : c.Interval = 0 <;> simp [hz]
  rw [hres]
  by_cases hW : c.Whence = 0 ∨ c.Whence = 1 ∨ c.Whence = 2
  · rw [if_neg (not_not_intro hW)]
    by_cases hB : c.Interval < 0
    · rw [if_pos hB]
      exact ⟨iff_of_false (by simp [Except.isOk, Except.toBool])
        (fun hcon => by have := hcon.2.1; omega), fun p hp => by simp at hp⟩
    · rw [if_neg hB]
      by_cases hC : c.Path = ""
      · rw [if_pos hC]
        exact ⟨iff_of_false (by simp [Except.isOk, Except.toBool])
          (fun hcon => hcon.2.2 hC), fun p hp => by simp at hp⟩
      · rw [if_neg hC]
        refine ⟨iff_of_true (by simp [Except.isOk, Except.toBool]) ⟨hW, by omega, hC⟩,
          fun p hp => ?_⟩
        injection hp with hp2
        subst hp2
        exact ⟨rfl, rfl, rfl⟩
  · rw [if_pos hW]
    exact ⟨iff_of_false (by simp [Except.isOk, Except.toBool])
      (fun hcon => hW hcon.1), fun p hp => by simp at hp⟩

/-- Witness for C8: a config with whence = end and a zero interval
constructs successfully with the interval coerced to one second. -/
theorem NewPollingWatcher_validation_witness :
    (NewPollingWatcher
        { Path := "log", Interval := 0, Whence := 2,
          StartState := none, StopAtEOF := false }).isOk = true ∧
    ({ c := { Path := "log", Interval := timeSecond, Whence := 2,
              StartState := none, StopAtEOF := false },
       f := none, closed := false } : pollWatcher).c.Interval =
      (if (0 : Int) = 0 then timeSecond else (0 : Int)) :=
  ⟨by
    have h := (NewPollingWatcher_validation
      { Path := "log", Interval := 0, Whence := 2,
        StartState := none, StopAtEOF := false }).1
    exact h.mpr ⟨Or.inr (Or.inr rfl), le_refl 0, by simp⟩,
   ((NewPollingWatcher_validation
      { Path := "log", Interval := 0, Whence := 2,
        StartState := none, StopAtEOF := false }).2
      { c := { Path := "log", Interval := timeSecond, Whence := 2,
               StartState := none, StopAtEOF := false },
        f := none, closed := false } rfl).2.2⟩

/-- Counterexample to claim C7: with a file handle open, the second call
of Close returns the already-closed error from re-closing the retained
handle (the handle reference is never cleared), not nil. -/
theorem pollWatcher_Close_second_call_errs :
    (pollWatcher.Close
      { c := { Path := "log", Interval := timeSecond, Whence := 0,
               StartState := none, StopAtEOF := false },
        f := some { ino := 1, offset := 0, isClosed := false },
        closed := false }).2 = none ∧
    (pollWatcher.Close (pollWatcher.Close
      { c := { Path := "log", Interval := timeSecond, Whence := 0,
               StartState := none, StopAtEOF := false },
        f := some { ino := 1, offset := 0, isClosed := false },
        closed := false }).1).2 = some .errClosed :=
  ⟨rfl, rfl⟩

/-- Claim C7 as amended: once the watcher is closed, further Close calls
change nothing (the cancellation signal is written at most once), and
they return no error exactly when no file handle is open; with an open
(already closed) handle they surface the re-close error. -/
theorem pollWatcher_Close_idempotent_amended (p : pollWatcher)
    (hclosed : p.closed = true)
    (hf : ∀ h, p.f = some h → h.isClosed = true) :
    (pollWatcher.Close p).1 = p ∧
    ((pollWatcher.Close p).2 = none ↔ p.f = none) := by
  obtain ⟨pc, pf, pcl⟩ := p
  replace hclosed : pcl = true := hclosed
  subst hclosed
  cases pf with
  | none => simp [pollWatcher.Close]
  | some h =>
    have hc : h.isClosed = true := hf h rfl
    simp [pollWatcher.Close, fileClose, hc]

/-- Witness for the amended C7: a closed watcher still holding its
(closed) handle is left unchanged by another Close, which reports the
re-close error. -/
theorem pollWatcher_Close_idempotent_amended_witness :
    (pollWatcher.Close
      { c := { Path := "log", Interval := timeSecond, Whence := 0,
               StartState := none, StopAtEOF := false },
        f := some { ino := 3, offset := 7, isClosed := true },
        closed := true }).1 =
      { c := { Path := "log", Interval := timeSecond, Whence := 0,
               StartState := none, StopAtEOF := false },
        f := some { ino := 3, offset := 7, isClosed := true },
        closed := true } ∧
    ((pollWatcher.Close
      { c := { Path := "log", Interval := timeSecond, Whence := 0,
               StartState := none, StopAtEOF := false },
        f := some { ino := 3, offset := 7, isClosed := true },
        closed := true }).2 = none ↔
      ({ c := { Path := "log", Interval := timeSecond, Whence := 0,
                StartState := none, StopAtEOF := false },
         f := some { ino := 3, offset := 7, isClosed := true },
         closed := true } : pollWatcher).f = none) :=
  pollWatcher_Close_idempotent_amended
    { c := { Path := "log", Interval := timeSecond, Whence := 0,
             StartState := none, StopAtEOF := false },
      f := some { ino := 3, offset := 7, isClosed := true },
      closed := true }
    rfl (fun h hh => by cases hh; rfl)

/-- The handle returned by a successful open sits at offset 0. -/
theorem osOpen_offset {sys : Sys} {f0 : Handle} (h : osOpen sys = .ok f0) :
    f0.offset = 0 := by
  unfold osOpen at h
  cases hn : sys.named with
  | none => rw [hn] at h; cases h
  | some ino =>
    rw [hn] at h
    injection h with h2
    subst h2
    rfl

/-- A declined SeekIfMatches leaves the handle untouched. -/
theorem seekIfMatchesSys_declined_handle {sys : Sys} {s : FileState}
    {f f2 : Handle} {ns : FileState}
    (h : seekIfMatchesSys sys s f = .ok (ns, false, f2)) : f2 = f := by
  unfold seekIfMatchesSys at h
  split at h
  · simp at h
  · split_ifs at h with h1 h2 <;>
      simp only [Except.ok.injEq, Prod.mk.injEq] at h
    · exact h.2.2.symm
    · exact h.2.2.symm
    · exact absurd h.2.1 (by simp)

/-- Counterexample to claim C5: configured whence = end over a 3-byte
file, with a start state whose inode matches but whose position (5)
exceeds the size, the resume is declined and the handle is left at
offset 0 — not at end-of-file (offset 3) as the claim prescribes. -/
theorem openAndSeek_declined_resume_cex :
    openAndSeek { files := [(1, [97, 98, 99])], named := some 1 }
      { c := { Path := "log", Interval := timeSecond, Whence := 2,
               StartState := some { Size := 5, Position := 5, Inode := 1 },
               StopAtEOF := false },
        f := none, closed := false } =
      .ok ({ c := { Path := "log", Interval := timeSecond, Whence := 0,
                    StartState := none, StopAtEOF := false },
             f := none, closed := false },
           { ino := 1, offset := 0, isClosed := false }) ∧
    (0 : Int) ≠ (3 : Int) :=
  ⟨rfl, by norm_num⟩

/-- Claim C5 as amended: when a start state is present, the first open
one-shot clears it and coerces whence to start regardless of the match
outcome; on a declined resume the handle is left at offset 0 (the
configured whence is never applied). -/
theorem openAndSeek_declined_resume_starts_at_zero
    (sys : Sys) (p : pollWatcher) (st : FileState)
    (hss : p.c.StartState = some st) (p2 : pollWatcher) (h2 : Handle)
    (hok : openAndSeek sys p = .ok (p2, h2)) :
    p2.c.StartState = none ∧ p2.c.Whence = 0 ∧
    ∃ f0 ns m, osOpen sys = .ok f0 ∧
      seekIfMatchesSys sys st f0 = .ok (ns, m, h2) ∧
      (m = false → h2.offset = 0) := by
  have hform : openAndSeek sys p =
      match osOpen sys with
      | .error e => .error e
      | .ok f =>
        match seekIfMatchesSys sys st f with
        | .error e => .error e
        | .ok (_, _, f2) =>
          .ok ({ p with c := { p.c with StartState := none, Whence := 0 } }, f2) := by
    unfold openAndSeek
    rw [hss]
  rw [hform] at hok
  split at hok
  · simp at hok
  · rename_i f0 ho
    split at hok
    · simp at hok
    · rename_i ns0 m0 f20 hs
      simp only [Except.ok.injEq, Prod.mk.injEq] at hok
      obtain ⟨hp2, hh2⟩ := hok
      subst hp2
      subst hh2
      refine ⟨rfl, rfl, f0, ns0, m0, ho, hs, fun hm => ?_⟩
      subst hm
      rw [seekIfMatchesSys_declined_handle hs]
      exact osOpen_offset ho

/-- Witness for the amended C5: a start state whose position 9 exceeds
the 4-byte file is declined; the handle stays at offset 0 and the start
state and whence are cleared. -/
theorem openAndSeek_declined_resume_starts_at_zero_witness :
    ({ c := { Path := "log", Interval := timeSecond, Whence := 0,
              StartState := none, StopAtEOF := false },
       f := none, closed := false } : pollWatcher).c.StartState = none ∧
    ({ c := { Path := "log", Interval := timeSecond, Whence := 0,
              StartState := none, StopAtEOF := false },
       f := none, closed := false } : pollWatcher).c.Whence = 0 ∧
    ∃ f0 ns m, osOpen { files := [(4, [97, 98, 99, 100])], named := some 4 } = .ok f0 ∧
      seekIfMatchesSys { files := [(4, [97, 98, 99, 100])], named := some 4 }
        { Size := 9, Position := 9, Inode := 4 } f0 =
        .ok (ns, m, { ino := 4, offset := 0, isClosed := false }) ∧
      (m = false → ({ ino := 4, offset := 0, isClosed := false } : Handle).offset = 0) :=
  openAndSeek_declined_resume_starts_at_zero
    { files := [(4, [97, 98, 99, 100])], named := some 4 }
    { c := { Path := "log", Interval := timeSecond, Whence := 2,
             StartState := some { Size := 9, Position := 9, Inode := 4 },
             StopAtEOF := false },
      f := none, closed := false }
    { Size := 9, Position := 9, Inode := 4 } rfl
    { c := { Path := "log", Interval := timeSecond, Whence := 0,
             StartState := none, StopAtEOF := false },
      f := none, closed := false }
    { ino := 4, offset := 0, isClosed := false } rfl

/-- Claim C1 (evaluation of the code at the failing input): the watcher
is Tracking a fully drained file (inode 1, size 2 = position 2) while the
path names a different file (inode 2, size 3).  One Wait iteration
returns ReOpened = false with a nil error and leaves the watcher
untouched: no second identity capture of the open handle is performed,
the old handle is not closed, and the Unopened reset never happens.  The
rotation double-check of poll_rotater.go lines 127-147 is unreachable
(every branch of the if/else chain at lines 119-125 ends in continue or
return), so the watcher can never adopt the replacement, contrary to the
claim, to the comment in the code, and to TestLineReaderRotate. -/
theorem Wait_rotation_no_double_check :
    waitIter (fun _ => { files := [(1, [97, 98]), (2, [99, 100, 101])], named := some 2 }) 0
      { c := { Path := "log", Interval := timeSecond, Whence := 0,
               StartState := none, StopAtEOF := false },
        f := some { ino := 1, offset := 2, isClosed := false }, closed := false } =
      ({ c := { Path := "log", Interval := timeSecond, Whence := 0,
                StartState := none, StopAtEOF := false },
         f := some { ino := 1, offset := 2, isClosed := false }, closed := false },
       2,
       some ({ State := { Size := 2, Position := 2, Inode := 1 },
               FileIno := some 1, ReOpened := false }, false, none)) := rfl

/-- Claim C2: checkpoint round-trip.  Over an unchanged file, after `k`
records the exposed identity is (size, posAfter k, inode); opening a new
LineReader with that identity as start state makes the watcher seek the
fresh handle to exactly that position, and the first record produced from
there is record `k+1` of the file. -/
theorem LineReader_checkpoint_roundtrip
    (content : List Nat) (ino k : Nat) (path : String) (iv wh : Int) (sEOF : Bool)
    (hk : k < (recordsFrom content 0).length) :
    ∃ p2 h2,
      openAndSeek { files := [(ino, content)], named := some ino }
        { c := { Path := path, Interval := iv, Whence := wh,
                 StartState := some { Size := content.length,
                                      Position := posAfter content 0 k, Inode := ino },
                 StopAtEOF := sEOF },
          f := none, closed := false } = .ok (p2, h2) ∧
      h2.offset = (posAfter content 0 k : Int) ∧
      (recordsFrom content (posAfter content 0 k)).head? = (recordsFrom content 0)[k]? ∧
      ((recordsFrom content 0)[k]?).isSome = true := by
  have hpk : posAfter content 0 k ≤ content.length := posAfter_le k (Nat.zero_le _)
  have hpk2 : ¬((content.length : Int) < (posAfter content 0 k : Int)) := by
    exact_mod_cast Nat.not_lt.mpr hpk
  refine ⟨{ c := { Path := path, Interval := iv, Whence := 0,
                   StartState := none, StopAtEOF := sEOF },
            f := none, closed := false },
          { ino := ino, offset := (posAfter content 0 k : Int), isClosed := false },
          ?_, rfl, ?_, ?_⟩
  · simp [openAndSeek, osOpen, seekIfMatchesSys, newFileStateSys, List.lookup, hpk2]
  · rw [recordsFrom_posAfter content 0 k, head?_drop_eq]
    exact List.get?_eq_getElem? _ _
  · simp [List.getElem?_eq_getElem hk]

/-- Witness for C2: the file with bytes 104 105 10 119 10 and checkpoint
k = 1 resumes at position 3 and produces record 2 first. -/
theorem LineReader_checkpoint_roundtrip_witness :
    ∃ p2 h2,
      openAndSeek { files := [(3, [104, 105, 10, 119, 10])], named := some 3 }
        { c := { Path := "log", Interval := 1, Whence := 2,
                 StartState := some { Size := 5, Position := 3, Inode := 3 },
                 StopAtEOF := true },
          f := none, closed := false } = .ok (p2, h2) ∧
      h2.offset = (3 : Int) ∧
      (recordsFrom [104, 105, 10, 119, 10] 3).head? =
        (recordsFrom [104, 105, 10, 119, 10] 0)[1]? ∧
      ((recordsFrom [104, 105, 10, 119, 10] 0)[1]?).isSome = true := by
  have hk : 1 < (recordsFrom [104, 105, 10, 119, 10] 0).length := by
    rw [recordsFrom_eq_cons
          (show nextStatic [104, 105, 10, 119, 10] 0 = some ([104, 105], 3) from rfl),
        recordsFrom_eq_cons
          (show nextStatic [104, 105, 10, 119, 10] 3 = some ([119], 5) from rfl),
        recordsFrom_eq_nil
          (show nextStatic [104, 105, 10, 119, 10] 5 = none from rfl)]
    norm_num
  exact LineReader_checkpoint_roundtrip [104, 105, 10, 119, 10] 3 1 "log" 1 2 true hk

/-- Claim C6: record delimiter stripping.  On consumed bytes ending in a
newline (the only way the read loop of Next breaks), the trim removes
exactly the final two bytes when the bytes end in carriage-return and
newline, otherwise exactly the final newline; a lone newline yields the
empty record; no other bytes change. -/
theorem Next_strips_delimiter (b : List Nat) (hb : b.getLast? = some 10) :
    (List.isSuffixOf [13, 10] b = true → stripDelim b ++ [13, 10] = b) ∧
    (¬List.isSuffixOf [13, 10] b = true → stripDelim b ++ [10] = b) ∧
    (b = [10] → stripDelim b = []) := by
  refine ⟨fun hsuf => ?_, fun hnsuf => ?_, fun h10 => by subst h10; rfl⟩
  · obtain ⟨pre, hpre⟩ := List.isSuffixOf_iff_suffix.mp hsuf
    rw [stripDelim, if_pos hsuf, ← hpre]
    have hlen : (pre ++ [13, 10]).length - 2 = pre.length := by simp
    rw [hlen, List.take_left' rfl]
  · rw [stripDelim, if_neg hnsuf, ← List.dropLast_eq_take]
    exact List.dropLast_append_getLast? 10 hb

/-- Witness for C6: the raw bytes 97 13 10 end in carriage-return and
newline and strip to the single byte 97. -/
theorem Next_strips_delimiter_witness :
    (List.isSuffixOf [13, 10] [97, 13, 10] = true →
      stripDelim [97, 13, 10] ++ [13, 10] = [97, 13, 10]) ∧
    (¬List.isSuffixOf [13, 10] [97, 13, 10] = true →
      stripDelim [97, 13, 10] ++ [10] = [97, 13, 10]) ∧
    ([97, 13, 10] = [10] → stripDelim [97, 13, 10] = []) :=
  Next_strips_delimiter [97, 13, 10] rfl

/-- Counterexample to claim C4: on the line-boundaries vector the
exposed positions after the five records are not 6, 13, 15, 16, 18 (the
input is ten bytes long; those positions belong to a different vector). -/
theorem LineReader_line_vector_cex :
    runNexts lineVectorEnv 4 4 5 0 lineVectorWatcher (initLineReader true false) ≠
      [([97], { Size := 10, Position := 6, Inode := 1 }),
       ([98], { Size := 10, Position := 13, Inode := 1 }),
       ([99], { Size := 10, Position := 15, Inode := 1 }),
       ([], { Size := 10, Position := 16, Inode := 1 }),
       ([100], { Size := 10, Position := 18, Inode := 1 })] := by decide

/-- Claim C4 as amended: on the ten-byte input the records are a, b, c,
empty, d and the exposed position after each record is the cumulative
count of consumed bytes including delimiters: 2, 5, 7, 8, 10. -/
theorem LineReader_line_vector :
    runNexts lineVectorEnv 4 4 5 0 lineVectorWatcher (initLineReader true false) =
      [([97], { Size := 10, Position := 2, Inode := 1 }),
       ([98], { Size := 10, Position := 5, Inode := 1 }),
       ([99], { Size := 10, Position := 7, Inode := 1 }),
       ([], { Size := 10, Position := 8, Inode := 1 }),
       ([100], { Size := 10, Position := 10, Inode := 1 })] := by decide

/-- Counterexample to claim C9: with bytes appended between the
watcher's stat and the buffered reads (and no truncation anywhere), the
LineReader exposes the identity size 3, position 4 after the second
record: its position exceeds its size. -/
theorem LineReader_position_exceeds_size_cex :
    runNexts growthEnv 4 4 2 0 growthWatcher (initLineReader true false) =
      [([97], { Size := 3, Position := 2, Inode := 1 }),
       ([98], { Size := 3, Position := 4, Inode := 1 })] ∧
    ¬((4 : Int) ≤ (3 : Int)) := ⟨by decide, by decide⟩

/-- A successful handle capture names the tracked file's contents. -/
theorem newFileStateSys_ok {sys : Sys} {h : Handle} {st : FileState}
    (hok : newFileStateSys sys h = .ok st) :
    ∃ content, sys.files.lookup h.ino = some content ∧
      st = { Size := content.length, Position := h.offset, Inode := h.ino } := by
  unfold newFileStateSys at hok
  split at hok
  · simp at hok
  · rename_i content hc
    injection hok with h2
    exact ⟨content, hc, h2.symm⟩

/-- Shape of a successful SeekIfMatches over a snapshot: either declined
with the handle unchanged, or matched, with the handle seeked to the
stored position, which the stat bounded by the file size. -/
theorem seekIfMatchesSys_result {sys : Sys} {s : FileState} {f f2 : Handle}
    {ns : FileState} {m : Bool}
    (h : seekIfMatchesSys sys s f = .ok (ns, m, f2)) :
    (m = false ∧ f2 = f) ∨
    (m = true ∧ f2.ino = f.ino ∧ f2.offset = s.Position ∧
      ∃ content, sys.files.lookup f.ino = some content ∧
        s.Position ≤ (content.length : Int)) := by
  unfold seekIfMatchesSys at h
  split at h
  · simp at h
  · rename_i st hn
    obtain ⟨content, hc, hst⟩ := newFileStateSys_ok hn
    subst hst
    split_ifs at h with h1 h2 <;>
      simp only [Except.ok.injEq, Prod.mk.injEq] at h
    · exact Or.inl ⟨h.2.1.symm, h.2.2.symm⟩
    · exact Or.inl ⟨h.2.1.symm, h.2.2.symm⟩
    · obtain ⟨hns, hm, hf2⟩ := h
      refine Or.inr ⟨hm.symm, ?_, ?_, content, hc, not_lt.mp h2⟩
      · rw [← hf2]
      · rw [← hf2]

/-- Bounds on the offset of the handle a successful openAndSeek returns:
nonnegative, and either 0 or within the size the seek observed. -/
theorem openAndSeek_offset_cases {sys : Sys} {p p2 : pollWatcher} {f : Handle}
    (hstart : ∀ st, p.c.StartState = some st → 0 ≤ st.Position)
    (hok : openAndSeek sys p = .ok (p2, f)) :
    0 ≤ f.offset ∧
    (f.offset = 0 ∨ ∃ content, sys.files.lookup f.ino = some content ∧
      f.offset ≤ (content.length : Int)) := by
  cases hss : p.c.StartState with
  | some st =>
    obtain ⟨-, -, f0, ns, m, ho, hs, -⟩ :=
      openAndSeek_declined_resume_starts_at_zero sys p st hss p2 f hok
    have hoff0 : f0.offset = 0 := osOpen_offset ho
    rcases seekIfMatchesSys_result hs with ⟨-, hf⟩ | ⟨-, hino, hoff, content, hc, hle⟩
    · subst hf
      rw [hoff0]
      exact ⟨le_refl 0, Or.inl rfl⟩
    · rw [hoff]
      refine ⟨hstart st hss, Or.inr ⟨content, ?_, hle⟩⟩
      rw [hino]
      exact hc
  | none =>
    have hform : openAndSeek sys p =
        match osOpen sys with
        | .error e => .error e
        | .ok f0 =>
          if p.c.Whence ≠ 0 then
            match sys.files.lookup f0.ino with
            | none => .error .ioError
            | some content =>
              .ok ({ p with c := { p.c with Whence := 0 } },
                   { f0 with offset := if p.c.Whence = 2 then (content.length : Int)
                                       else f0.offset })
          else .ok (p, f0) := by
      unfold openAndSeek
      rw [hss]
    rw [hform] at hok
    split at hok
    · simp at hok
    · rename_i f0 ho
      have hoff0 : f0.offset = 0 := osOpen_offset ho
      split_ifs at hok with hw hw2
      · split at hok
        · simp at hok
        · rename_i content hc
          simp only [Except.ok.injEq, Prod.mk.injEq] at hok
          obtain ⟨-, hf⟩ := hok
          subst hf
          exact ⟨by simp, Or.inr ⟨content, hc, by simp⟩⟩
      · split at hok
        · simp at hok
        · rename_i content hc
          simp only [Except.ok.injEq, Prod.mk.injEq] at hok
          obtain ⟨-, hf⟩ := hok
          subst hf
          exact ⟨by simp [hoff0], Or.inl (by simp [hoff0])⟩
      · simp only [Except.ok.injEq, Prod.mk.injEq] at hok
        obtain ⟨-, hf⟩ := hok
        subst hf
        rw [hoff0]
        exact ⟨le_refl 0, Or.inl rfl⟩

/-- Claim C9 as amended: every identity that Wait itself returns with a
ready status and no error satisfies 0 <= position <= size, provided the
consumer's reads stayed within the file (the handle offset is bounded by
the size the same stat observes), any resume checkpoint is nonnegative,
and the file only grows between consecutive observations.  (The identity
the LineReader exposes after its own reads can exceed the stale size
field, as the counterexample shows.) -/
theorem waitIter_identity_invariant
    (env : Nat → Sys) (t : Nat) (p : pollWatcher)
    (hoff : ∀ f content, p.f = some f → ((env t).files.lookup f.ino) = some content →
      0 ≤ f.offset ∧ f.offset ≤ (content.length : Int))
    (hstart : ∀ st, p.c.StartState = some st → 0 ≤ st.Position)
    (hgrow : ∀ ino c1 c2, ((env t).files.lookup ino) = some c1 →
      ((env (t + 1)).files.lookup ino) = some c2 → c1.length ≤ c2.length)
    (p2 : pollWatcher) (t2 : Nat) (s : WaitStatusM)
    (hres : waitIter env t p = (p2, t2, some (s, false, none))) :
    0 ≤ s.State.Position ∧ s.State.Position ≤ s.State.Size := by
  by_cases hcl : p.closed
  · rw [waitIter, if_pos hcl] at hres
    simp [Prod.ext_iff] at hres
  · cases hpf : p.f with
    | none =>
      have hform : waitIter env t p =
          match openAndSeek (env t) p with
          | .error e =>
            if e = .notExist then
              ({ p with c := { p.c with Whence := 0 } }, t + 1, none)
            else (p, t + 1, some (emptyStatus, p.closed, some e))
          | .ok (p3, f) =>
            match newFileStateSys (env (t + 1)) f with
            | .error e => (p3, t + 2, some (emptyStatus, p3.closed, some e))
            | .ok st =>
              ({ p3 with f := some f }, t + 2,
               some ({ State := st, FileIno := some f.ino, ReOpened := true }, false, none)) := by
        rw [waitIter, if_neg hcl, hpf]
      rw [hform] at hres
      split at hres
      · rename_i e
        split_ifs at hres <;> simp [Prod.ext_iff] at hres
      · rename_i p3 f hopen
        split at hres
        · simp [Prod.ext_iff] at hres
        · rename_i st hcap
          obtain ⟨c2, hc2, hst⟩ := newFileStateSys_ok hcap
          simp only [Prod.ext_iff, Option.some.injEq] at hres
          obtain ⟨-, -, hs, -⟩ := hres
          subst hs
          subst hst
          obtain ⟨hnn, hcases⟩ := openAndSeek_offset_cases hstart hopen
          refine ⟨hnn, ?_⟩
          rcases hcases with h0 | ⟨c1, hc1, hle⟩
          · simp [h0]
          · have := hgrow f.ino c1 c2 hc1 hc2
            simp only
            calc f.offset ≤ (c1.length : Int) := hle
              _ ≤ (c2.length : Int) := by exact_mod_cast this
    | some f =>
      have hform : waitIter env t p =
          match newFileStateSys (env t) f with
          | .error e =>
            (p, t + 1, some ({ emptyStatus with FileIno := some f.ino }, false, some e))
          | .ok st =>
            if st.Size > st.Position then
              (p, t + 1,
               some ({ State := st, FileIno := some f.ino, ReOpened := false }, false, none))
            else
              match NewFileStateFromPath (env (t + 1)) with
              | .ok named =>
                if st.Inode = named.Inode then (p, t + 2, none)
                else
                  (p, t + 2,
                   some ({ State := st, FileIno := some f.ino, ReOpened := false }, false, none))
              | .error e =>
                if e = .notExist then (p, t + 2, none)
                else
                  (p, t + 2,
                   some ({ State := st, FileIno := some f.ino, ReOpened := false }, false, some e)) := by
        rw [waitIter, if_neg hcl, hpf]
      rw [hform] at hres
      split at hres
      · simp [Prod.ext_iff] at hres
      · rename_i st hcap
        obtain ⟨c1, hc1, hst⟩ := newFileStateSys_ok hcap
        obtain ⟨h0, hle⟩ := hoff f c1 hpf hc1
        have hgoal : 0 ≤ st.Position ∧ st.Position ≤ st.Size := by
          subst hst
          exact ⟨h0, hle⟩
        split_ifs at hres with hgt
        · simp only [Prod.ext_iff, Option.some.injEq] at hres
          obtain ⟨-, -, hs, -⟩ := hres
          subst hs
          exact hgoal
        · split at hres
          · split_ifs at hres with heq
            · simp [Prod.ext_iff] at hres
            · simp only [Prod.ext_iff, Option.some.injEq] at hres
              obtain ⟨-, -, hs, -⟩ := hres
              subst hs
              exact hgoal
          · split_ifs at hres with hne
            · simp [Prod.ext_iff] at hres
            · simp [Prod.ext_iff] at hres

/-- Witness for the amended C9: a tracked two-byte file with the handle
at offset 0 yields the ready identity size 2, position 0. -/
theorem waitIter_identity_invariant_witness :
    (0 : Int) ≤ ({ State := { Size := 2, Position := 0, Inode := 1 },
                   FileIno := some 1, ReOpened := false } : WaitStatusM).State.Position ∧
    ({ State := { Size := 2, Position := 0, Inode := 1 },
       FileIno := some 1, ReOpened := false } : WaitStatusM).State.Position ≤
      ({ State := { Size := 2, Position := 0, Inode := 1 },
         FileIno := some 1, ReOpened := false } : WaitStatusM).State.Size := by
  refine waitIter_identity_invariant
    (fun _ => { files := [(1, [97, 10])], named := some 1 }) 0
    { c := { Path := "log", Interval := timeSecond, Whence := 0,
             StartState := none, StopAtEOF := false },
      f := some { ino := 1, offset := 0, isClosed := false }, closed := false }
    ?_ ?_ ?_
    { c := { Path := "log", Interval := timeSecond, Whence := 0,
             StartState := none, StopAtEOF := false },
      f := some { ino := 1, offset := 0, isClosed := false }, closed := false }
    1
    { State := { Size := 2, Position := 0, Inode := 1 },
      FileIno := some 1, ReOpened := false }
    rfl
  · intro f content hf hc
    simp only [Option.some.injEq] at hf
    subst hf
    simp [List.lookup] at hc
    subst hc
    simp
  · intro st hst
    simp at hst
  · intro ino c1 c2 h1 h2
    rw [h1] at h2
    injection h2 with h3
    rw [h3]

/-- ReadBytes on a chunk with no newline returns the whole chunk (with
EOF). -/
theorem takeUpToNewline_eq_self {l : List Nat} (h : 10 ∉ l) :
    takeUpToNewline l = l := by
  induction l with
  | nil => rfl
  | cons b bs ih =>
    have hb : ¬b = 10 := fun hb => h (by simp [hb])
    simp only [takeUpToNewline, if_neg hb]
    rw [ih (fun hm => h (List.mem_cons_of_mem _ hm))]

/-- ReadBytes stops at the first newline. -/
theorem takeUpToNewline_firstLine (pre rest : List Nat) (h : 10 ∉ pre) :
    takeUpToNewline (pre ++ 10 :: rest) = pre ++ [10] := by
  induction pre with
  | nil => simp [takeUpToNewline]
  | cons b bs ih =>
    have hb : ¬b = 10 := fun hb => h (by simp [hb])
    rw [List.cons_append]
    simp only [takeUpToNewline, if_neg hb]
    rw [ih (fun hm => h (List.mem_cons_of_mem _ hm)), List.cons_append]

/-- A chunk without a newline does not end in one. -/
theorem getLast?_ne_ten {l : List Nat} (h : 10 ∉ l) : l.getLast? ≠ some 10 :=
  fun hl => h (List.mem_of_getLast?_eq_some hl)

/-- The CRLF check of the trim: bytes ending in a newline have the
carriage-return-newline suffix exactly when the byte before the final
newline is a carriage return. -/
theorem isSuffixOf_crlf_concat (x : List Nat) :
    List.isSuffixOf [13, 10] (x ++ [10]) = true ↔ x.getLast? = some 13 := by
  constructor
  · intro hs
    obtain ⟨tl, htl⟩ := List.isSuffixOf_iff_suffix.mp hs
    have h2 : (tl ++ [13]) ++ [10] = x ++ [10] := by simpa using htl
    have h3 : tl ++ [13] = x := List.append_cancel_right h2
    rw [← h3]
    exact List.getLast?_concat _
  · intro hx
    have h3 : x.dropLast ++ [13] = x := List.dropLast_append_getLast? 13 (Option.mem_def.mpr hx)
    apply List.isSuffixOf_iff_suffix.mpr
    refine ⟨x.dropLast, ?_⟩
    rw [← h3]
    simp

/-- Trimming a record that ends in a newline whose preceding byte is not
a carriage return removes exactly the newline. -/
theorem stripDelim_concat_ne13 {x : List Nat} (hx : x.getLast? ≠ some 13) :
    stripDelim (x ++ [10]) = x := by
  have hs : ¬List.isSuffixOf [13, 10] (x ++ [10]) = true :=
    fun h => hx ((isSuffixOf_crlf_concat x).mp h)
  rw [stripDelim, if_neg hs, ← List.dropLast_eq_take, List.dropLast_concat]

/-- Claim C10: a record may span two underlying files.  When the tracked
file (inode ino1) ends in a newline-free tail and the watcher then
delivers a reopened status for the replacement (inode ino2), a single
Next call keeps the partial tail in the record buffer across the
transition, rebuilds the buffered reader over the replacement, and
returns the old tail concatenated with the replacement's first line; the
exposed position counts only the bytes consumed from the replacement. -/
theorem Next_record_spans_rotation
    (fuel : Nat) (oldTail pre rest : List Nat) (ino1 ino2 : Nat) (s0 : FileState)
    (hot : 10 ∉ oldTail) (_hone : oldTail ≠ []) (hpre : 10 ∉ pre)
    (hno13 : (oldTail ++ pre).getLast? ≠ some 13) (hino : ino1 ≠ ino2) :
    ∃ l2,
      NextCall (rotEnv ino1 ino2 oldTail (pre ++ 10 :: rest))
        scriptWaitFn (fuel + 1 + 1) 0
        [({ State := { Size := ((pre ++ 10 :: rest).length : Int), Position := 0, Inode := ino2 },
            FileIno := some ino2, ReOpened := true }, false, none)]
        { sState := s0, sFileIno := some ino1, brFile := some ino1, brPos := 0,
          lastBytes := [], err := false, stopAtEOF := false, handlerFatal := false } =
        ([], 3, l2, some true) ∧
      l2.lastBytes = oldTail ++ pre ∧
      l2.sState.Position = (pre.length : Int) + 1 ∧
      l2.brFile = some ino2 := by
  have hb1 : takeUpToNewline oldTail = oldTail := takeUpToNewline_eq_self hot
  have hb1last : oldTail.getLast? ≠ some 10 := getLast?_ne_ten hot
  have hb2 : takeUpToNewline (pre ++ 10 :: rest) = pre ++ [10] :=
    takeUpToNewline_firstLine pre rest hpre
  have hlook2 : (ino2 == ino1) = false := beq_eq_false_iff_ne.mpr (Ne.symm hino)
  have hrun : NextCall (rotEnv ino1 ino2 oldTail (pre ++ 10 :: rest))
      scriptWaitFn (fuel + 1 + 1) 0
      [({ State := { Size := ((pre ++ 10 :: rest).length : Int), Position := 0, Inode := ino2 },
          FileIno := some ino2, ReOpened := true }, false, none)]
      { sState := s0, sFileIno := some ino1, brFile := some ino1, brPos := 0,
        lastBytes := [], err := false, stopAtEOF := false, handlerFatal := false } =
      ([], 3,
       { sState := { Size := ((pre ++ 10 :: rest).length : Int),
                     Position := 0 + ((pre ++ [10]).length : Int), Inode := ino2 },
         sFileIno := some ino2, brFile := some ino2,
         brPos := 0 + (pre ++ [10]).length,
         lastBytes := stripDelim (oldTail ++ (pre ++ [10])),
         err := false, stopAtEOF := false, handlerFatal := false },
       some true) := by
    simp only [NextCall, nextLoop, rotEnv, scriptWaitFn, contentAt, List.lookup,
      beq_self_eq_true, hlook2, List.drop_zero, hb1, hb2, hb1last,
      List.getLast?_concat, Int.toNat_zero, List.nil_append,
      eq_self_iff_true, if_true, if_false, Bool.false_eq_true]
  refine ⟨_, hrun, ?_, ?_, rfl⟩
  · show stripDelim (oldTail ++ (pre ++ [10])) = oldTail ++ pre
    rw [← List.append_assoc]
    exact stripDelim_concat_ne13 hno13
  · show 0 + ((pre ++ [10]).length : Int) = (pre.length : Int) + 1
    simp

/-- Witness for C10: old tail byte 112, replacement first line byte 113
plus newline; the produced record is 112 113 and the exposed position is
2 bytes into the replacement. -/
theorem Next_record_spans_rotation_witness :
    ∃ l2,
      NextCall (rotEnv 1 2 [112] ([113] ++ 10 :: []))
        scriptWaitFn (0 + 1 + 1) 0
        [({ State := { Size := ((([113] ++ 10 :: []).length : Nat) : Int),
                       Position := 0, Inode := 2 },
            FileIno := some 2, ReOpened := true }, false, none)]
        { sState := { Size := 0, Position := 0, Inode := 0 }, sFileIno := some 1,
          brFile := some 1, brPos := 0, lastBytes := [], err := false,
          stopAtEOF := false, handlerFatal := false } =
        ([], 3, l2, some true) ∧
      l2.lastBytes = [112] ++ [113] ∧
      l2.sState.Position = (([113].length : Nat) : Int) + 1 ∧
      l2.brFile = some 2 :=
  Next_record_spans_rotation 0 [112] [113] [] 1 2 { Size := 0, Position := 0, Inode := 0 }
    (by decide) (by decide) (by decide) (by decide) (by decide)
